import Mathlib

/-!
Verification development for the template-substitution code generator
(the CodeBuilder component of src/src/utils/codeBuilder.ts) and its
artifact-existence reconciliation driver
(src/src/commands/wizard/lwcGenerationCommand.ts).

Strings are modelled as lists of characters (JS strings, ASCII fragment).
Machine integers play no role.  All definitions are executable.
-/

/-- JS string-prefix test: does the pattern occur at the head of the string. -/
def begins : List Char → List Char → Bool
  | [], _ => true
  | _ :: _, [] => false
  | a :: as, b :: bs => a = b && begins as bs

/-- Substring occurrence test (at any position). -/
def hasSub (pat : List Char) : List Char → Bool
  | [] => begins pat []
  | c :: t => begins pat (c :: t) || hasSub pat t

/-- Number of (possibly overlapping) occurrences of a pattern. -/
def countSub (pat : List Char) : List Char → Nat
  | [] => if begins pat [] then 1 else 0
  | c :: t => (if begins pat (c :: t) then 1 else 0) + countSub pat t

/-- ECMA-262 GetSubstitution restricted to a plain-string search value (no
capture groups, no named captures): in the replacement text, dollar-dollar
yields one dollar sign, dollar-ampersand the matched text, dollar-backquote
(code point 96) the portion of the subject before the match, dollar-quote
(code point 39) the portion after the match; a dollar followed by anything
else, or a trailing dollar, stays literal.  The two quote characters are
spelled via their code points. -/
def getSubstitution (matched before after : List Char) : List Char → List Char
  | [] => []
  | c :: t =>
    if c = '$' then
      match t with
      | [] => ['$']
      | d :: t' =>
        if d = '$' then '$' :: getSubstitution matched before after t'
        else if d = '&' then matched ++ getSubstitution matched before after t'
        else if d = Char.ofNat 96 then
          before ++ getSubstitution matched before after t'
        else if d = Char.ofNat 39 then
          after ++ getSubstitution matched before after t'
        else '$' :: getSubstitution matched before after (d :: t')
    else c :: getSubstitution matched before after t

/-- Scanning core of JS String.prototype.replace with a plain-string search
value: before is the already-scanned prefix of the subject (needed by
GetSubstitution), and at the first match the replacement text is processed by
getSubstitution and spliced in; no match leaves the string unchanged. -/
def replaceFirstAux (pat rep : List Char) : List Char → List Char → List Char
  | before, [] => if begins pat [] then getSubstitution pat before [] rep else []
  | before, c :: t =>
    if begins pat (c :: t) then
      getSubstitution pat before ((c :: t).drop pat.length) rep ++
        (c :: t).drop pat.length
    else c :: replaceFirstAux pat rep (before ++ [c]) t

/-- JS String.prototype.replace with a plain-string search value: replaces only
the first occurrence of the pattern, processing GetSubstitution dollar
patterns in the replacement value, and leaves the string unchanged when the
pattern does not occur. -/
def replaceFirst (pat rep : List Char) (s : List Char) : List Char :=
  replaceFirstAux pat rep [] s

/-- Placeholder marker text for a key, as used throughout codeBuilder.ts. -/
def marker (key : List Char) : List Char :=
  ("///".data) ++ key ++ ("///".data)

/-- CodeBuilder.replaceAllTemplateVariables: for each key of the map, in map
iteration order, replace the first occurrence of the marker by the value
(JS for-in over an object literal iterates insertion order; the map is
modelled as an association list in insertion order). -/
def replaceAllTemplateVariables (contents : List Char)
    (templateVariables : List (List Char × List Char)) : List Char :=
  templateVariables.foldl
    (fun newFileContents kv => replaceFirst (marker kv.1) kv.2 newFileContents)
    contents

/-- ASCII model of JS String.prototype.toUpperCase, one character. -/
def upChar (c : Char) : Char :=
  if 'a' ≤ c ∧ c ≤ 'z' then Char.ofNat (c.toNat - 32) else c

/-- ASCII model of JS String.prototype.toLowerCase / toLocaleLowerCase,
one character. -/
def downChar (c : Char) : Char :=
  if 'A' ≤ c ∧ c ≤ 'Z' then Char.ofNat (c.toNat + 32) else c

/-- Accumulators of the forEach loop in CodeBuilder.generateTemplateVariables:
the six mutable strings grown per field. -/
structure FieldAcc where
  fields : List Char
  imports : List Char
  createFieldsHtml : List Char
  editFieldsHtml : List Char
  importAliases : List Char
  variableAssignments : List Char
  deriving DecidableEq

/-- One iteration of the forEach loop over this.fieldNames in
CodeBuilder.generateTemplateVariables. -/
def fieldStep (objectApiName : List Char) (acc : FieldAcc) (field : List Char) :
    FieldAcc :=
  let fieldNameImport := field.map upChar ++ ("_FIELD".data)
  let fieldNameVariable := field.map downChar ++ ("Field".data)
  { fields := acc.fields ++ fieldNameImport ++ (", ".data)
    imports := acc.imports ++ ("import ".data) ++ fieldNameImport ++
      (" from \"@salesforce/schema/".data) ++ objectApiName ++ (".".data) ++
      field ++ ("\";\n".data)
    createFieldsHtml := acc.createFieldsHtml ++
      ("<lightning-input-field field-name=\x7b".data) ++ fieldNameVariable ++
      ("\x7d value=\x7b".data) ++ field.map downChar ++
      ("\x7d></lightning-input-field>\n\t\t\t\t".data)
    editFieldsHtml := acc.editFieldsHtml ++
      ("<lightning-input-field field-name=\x7b".data) ++ fieldNameVariable ++
      ("\x7d></lightning-input-field>\n\t\t\t\t".data)
    importAliases := acc.importAliases ++ fieldNameVariable ++ (" = ".data) ++
      fieldNameImport ++ (";\n\t".data)
    variableAssignments := acc.variableAssignments ++ field.map downChar ++
      (" = \"\";\n\t".data) }

/-- The six accumulators after folding the whole field list, seeded empty. -/
def fieldAccOf (objectApiName : List Char) (fieldNames : List (List Char)) :
    FieldAcc :=
  fieldNames.foldl (fieldStep objectApiName) ⟨[], [], [], [], [], []⟩

/-- Fixed placeholder keys of CodeBuilder.generateTemplateVariables. -/
def kOBJECT : List Char := "TEMPLATE_OBJECT_API_NAME".data

def kCREATELABEL : List Char := "TEMPLATE_CREATE_LWC_LABEL".data

def kEDITLABEL : List Char := "TEMPLATE_EDIT_LWC_LABEL".data

def kVIEWLABEL : List Char := "TEMPLATE_VIEW_LWC_LABEL".data

def kFIELDS : List Char := "TEMPLATE_FIELDS".data

def kIMPORTS : List Char := "TEMPLATE_IMPORTS".data

def kCREATEHTML : List Char := "TEMPLATE_LIGHTNING_INPUT_CREATE_FIELDS_HTML".data

def kEDITHTML : List Char := "TEMPLATE_LIGHTNING_INPUT_EDIT_FIELDS_HTML".data

def kVARIABLES : List Char := "TEMPLATE_VARIABLES".data

def kASSIGNMENTS : List Char := "TEMPLATE_VARIABLE_ASSIGNMENTS".data

/-- CodeBuilder.generateTemplateVariables: the full placeholder map built by the
constructor, as an association list in JS object insertion order. -/
def generateTemplateVariables (objectApiName : List Char)
    (fieldNames : List (List Char)) : List (List Char × List Char) :=
  let acc := fieldAccOf objectApiName fieldNames
  [ (kOBJECT, objectApiName),
    (kCREATELABEL,
      ("LWC for creating a/an ".data) ++ objectApiName ++ (" instance.".data)),
    (kEDITLABEL,
      ("LWC for editing a/an ".data) ++ objectApiName ++ (" instance.".data)),
    (kVIEWLABEL,
      ("LWC for viewing a/an ".data) ++ objectApiName ++ (" instance.".data)),
    (kFIELDS, acc.fields),
    (kIMPORTS, acc.imports),
    (kCREATEHTML, acc.createFieldsHtml),
    (kEDITHTML, acc.editFieldsHtml),
    (kVARIABLES, acc.importAliases),
    (kASSIGNMENTS, acc.variableAssignments) ]

/-- Association-list lookup, modelling JS property access on the object. -/
def lookupVar (vars : List (List Char × List Char)) (key : List Char) :
    Option (List Char) :=
  match vars with
  | [] => none
  | kv :: rest => if kv.1 = key then some kv.2 else lookupVar rest key

/-- Absence of two consecutive slash characters anywhere in the string. -/
def noDbl : List Char → Bool
  | [] => true
  | [_] => true
  | a :: b :: t => !(a = '/' && b = '/') && noDbl (b :: t)

/-- Test for a leading slash character. -/
def startsSlash : List Char → Bool
  | [] => false
  | c :: _ => c = '/'

/-- Test for a trailing slash character. -/
def endsSlash : List Char → Bool
  | [] => false
  | [c] => c = '/'
  | _ :: c :: t => endsSlash (c :: t)

/-- Absence of the slash character altogether. -/
def noSlash : List Char → Bool
  | [] => true
  | c :: t => !(c = '/') && noSlash t

/-- Absence of the dollar character, so that GetSubstitution inserts the
replacement text verbatim. -/
def noDollar : List Char → Bool
  | [] => true
  | c :: t => !(c = '$') && noDollar t

/-- Combined cleanliness predicate used in the rendering proofs: no double
slash, neither a leading nor a trailing slash, and no dollar character. -/
def cleanStr (l : List Char) : Bool :=
  noDbl l && !startsSlash l && !endsSlash l && noDollar l

/-- The ten fixed placeholder keys, in map insertion order. -/
def templateKeys : List (List Char) :=
  [kOBJECT, kCREATELABEL, kEDITLABEL, kVIEWLABEL, kFIELDS, kIMPORTS,
   kCREATEHTML, kEDITHTML, kVARIABLES, kASSIGNMENTS]

/-- Concatenation of the markers of a list of keys. -/
def markerConcat (keys : List (List Char)) : List Char :=
  (keys.map marker).flatten

/-- The template holding exactly one occurrence of each declared placeholder
marker, in map insertion order, and nothing else. -/
def canonicalTemplate : List Char := markerConcat templateKeys

/-- Concatenation of the values of a placeholder map. -/
def valuesConcat (vars : List (List Char × List Char)) : List Char :=
  (vars.map Prod.snd).flatten

/-- A template in which every one of the ten declared markers occurs exactly
once, yet rendering against the empty-field-list map leaves a marker behind:
substituting the empty TEMPLATE_FIELDS value splices the surrounding text into
a fresh TEMPLATE_IMPORTS marker, and the renderer then consumes that fresh
occurrence instead of the real one. -/
def badTemplate : List Char :=
  marker kOBJECT ++ marker kCREATELABEL ++ marker kEDITLABEL ++
  marker kVIEWLABEL ++ ("///TEMPLATE_IM".data) ++ marker kFIELDS ++
  ("PORTS///".data) ++ marker kIMPORTS ++ marker kCREATEHTML ++
  marker kEDITHTML ++ marker kVARIABLES ++ marker kASSIGNMENTS

/-- Filesystem paths, as lists of path segments.  node's path.join on the
constant directory strings of codeBuilder.ts normalises a leading dot-slash
away, so the constant './resources/templates' contributes the segments
resources, templates, and so on. -/
abbrev FsPath : Type := List (List Char)

/-- Failure-injection behaviour of the filesystem: which reads, directory
creations, writes and stats succeed.  A false entry models the corresponding
node fs call throwing. -/
structure FsBehavior where
  readOk : FsPath → Bool
  mkdirOk : FsPath → Bool
  writeOk : FsPath → Bool
  statOk : FsPath → Bool

/-- Behaviour in which every filesystem operation succeeds. -/
def allOk : FsBehavior :=
  ⟨fun _ => true, fun _ => true, fun _ => true, fun _ => true⟩

/-- Filesystem state: written files (most recent first) and existing
directories. -/
structure FsState where
  files : List (FsPath × List Char)
  dirs : List FsPath

/-- Membership of a path in a directory list. -/
def elemP (p : FsPath) : List FsPath → Bool
  | [] => false
  | q :: t => if q = p then true else elemP p t

/-- Lookup of a path among the written files. -/
def lookupA (p : FsPath) : List (FsPath × List Char) → Option (List Char)
  | [] => none
  | qc :: t => if qc.1 = p then some qc.2 else lookupA p t

/-- CodeBuilder.readFileContents: read the file at extensionUri joined with the
given path; any read failure (including absence) is caught and yields the
empty string. -/
def readFileContents (b : FsBehavior) (extensionUri : FsPath) (st : FsState)
    (filePath : FsPath) : List Char :=
  if b.readOk (extensionUri ++ filePath) then
    (lookupA (extensionUri ++ filePath) st.files).getD []
  else []

/-- Body of CodeBuilder.writeFileContents after the directory has been
ensured: write the file, swallowing a write failure. -/
def writeAttempt (b : FsBehavior) (st : FsState) (dirPath : FsPath)
    (filename content : List Char) : FsState × List (FsPath × List Char) :=
  let filePath := dirPath ++ [filename]
  if b.writeOk filePath then
    ({ st with files := (filePath, content) :: st.files }, [(filePath, content)])
  else (st, [])

/-- CodeBuilder.writeFileContents: ensure dirPath exists (creating it if
missing; a creation failure aborts this one write), then write the file.  The
second component records the write actually performed, if any. -/
def writeFileContents (b : FsBehavior) (st : FsState) (dirPath : FsPath)
    (filename content : List Char) : FsState × List (FsPath × List Char) :=
  if elemP dirPath st.dirs then writeAttempt b st dirPath filename content
  else if b.mkdirOk dirPath then
    writeAttempt b { st with dirs := dirPath :: st.dirs } dirPath filename content
  else (st, [])

/-- CodeBuilder.TEMPLATE_FILE_EXTENSIONS. -/
def TEMPLATE_FILE_EXTENSIONS : List (List Char) :=
  [("css".data), ("html".data), ("js".data), ("js-meta.xml".data)]

/-- CodeBuilder.copyTemplateFiles: for each extension, read the kind-specific
template, render it against the placeholder map, and write it into the
per-artifact destination directory.  The second component collects the writes
performed. -/
def copyTemplateFiles (b : FsBehavior) (extensionUri : FsPath)
    (templateVariables : List (List Char × List Char))
    (template destinationLwc : List Char) (st : FsState) :
    FsState × List (FsPath × List Char) :=
  TEMPLATE_FILE_EXTENSIONS.foldl (fun acc extension =>
    let templateFilePath : FsPath :=
      [("resources".data), ("templates".data), template,
       template ++ (".".data) ++ extension]
    let fileContents := readFileContents b extensionUri acc.1 templateFilePath
    let newFileContents := replaceAllTemplateVariables fileContents templateVariables
    let destinationDir : FsPath :=
      [("force-app".data), ("main".data), ("default".data), ("lwc".data),
       destinationLwc]
    let destinationFile := destinationLwc ++ (".".data) ++ extension
    let r := writeFileContents b acc.1 destinationDir destinationFile newFileContents
    (r.1, acc.2 ++ r.2)) (st, [])

/-- CodeBuilder.createQuickAction: render the shared action template against
the placeholder map merged with the kind-specific overrides, and write the
action-registration file under the quick-actions directory. -/
def createQuickAction (b : FsBehavior) (extensionUri : FsPath)
    (templateVariables : List (List Char × List Char))
    (label name iconName : List Char) (st : FsState) :
    FsState × List (FsPath × List Char) :=
  let templateFilePath : FsPath :=
    [("resources".data), ("templates".data), ("quickAction.xml".data)]
  let fileContents := readFileContents b extensionUri st templateFilePath
  let quickActionVariables : List (List Char × List Char) :=
    [ (("TEMPLATE_QUICK_ACTION_LABEL".data), label),
      (("TEMPLATE_LWC_NAME".data), name),
      (("TEMPLATE_QUICK_ACTION_ICON".data),
        if iconName ≠ [] then ("<icon>".data) ++ iconName ++ ("</icon>".data)
        else []) ]
  let newFileContents := replaceAllTemplateVariables fileContents
    (templateVariables ++ quickActionVariables)
  let objectApiName := (lookupVar templateVariables kOBJECT).getD []
  let destinationFile := objectApiName ++ (".".data) ++ label.map downChar ++
    (".quickAction-meta.xml".data)
  writeFileContents b st
    [("force-app".data), ("main".data), ("default".data), ("quickActions".data)]
    destinationFile newFileContents

/-- CodeBuilder.generateView: unconditional resolve(true) after the copy and
the quick-action creation; totality of this definition models that no failure
escapes. -/
def generateView (b : FsBehavior) (extensionUri : FsPath)
    (objectApiName : List Char) (fieldNames : List (List Char)) (st : FsState) :
    FsState × List (FsPath × List Char) × Bool :=
  let templateVariables := generateTemplateVariables objectApiName fieldNames
  let lwcName := ("view".data) ++ objectApiName ++ ("Record".data)
  let r1 := copyTemplateFiles b extensionUri templateVariables
    ("viewRecord".data) lwcName st
  let r2 := createQuickAction b extensionUri templateVariables ("View".data)
    lwcName [] r1.1
  (r2.1, r1.2 ++ r2.2, true)

/-- CodeBuilder.generateEdit. -/
def generateEdit (b : FsBehavior) (extensionUri : FsPath)
    (objectApiName : List Char) (fieldNames : List (List Char)) (st : FsState) :
    FsState × List (FsPath × List Char) × Bool :=
  let templateVariables := generateTemplateVariables objectApiName fieldNames
  let lwcName := ("edit".data) ++ objectApiName ++ ("Record".data)
  let r1 := copyTemplateFiles b extensionUri templateVariables
    ("editRecord".data) lwcName st
  let r2 := createQuickAction b extensionUri templateVariables ("Edit".data)
    lwcName ("editActionIcon".data) r1.1
  (r2.1, r1.2 ++ r2.2, true)

/-- CodeBuilder.generateCreate. -/
def generateCreate (b : FsBehavior) (extensionUri : FsPath)
    (objectApiName : List Char) (fieldNames : List (List Char)) (st : FsState) :
    FsState × List (FsPath × List Char) × Bool :=
  let templateVariables := generateTemplateVariables objectApiName fieldNames
  let lwcName := ("create".data) ++ objectApiName ++ ("Record".data)
  let r1 := copyTemplateFiles b extensionUri templateVariables
    ("createRecord".data) lwcName st
  let r2 := createQuickAction b extensionUri templateVariables ("Create".data)
    lwcName [] r1.1
  (r2.1, r1.2 ++ r2.2, true)

/-- Directory-list evolution of one writeFileContents call. -/
def dirsUpd (b : FsBehavior) (dirPath : FsPath) (dirs : List FsPath) :
    List FsPath :=
  if elemP dirPath dirs then dirs
  else if b.mkdirOk dirPath then dirPath :: dirs else dirs

/-- Whether a write into the given directory goes ahead (the directory exists
or can be created). -/
def dirReady (b : FsBehavior) (dirs : List FsPath) (dirPath : FsPath) : Bool :=
  elemP dirPath dirs || b.mkdirOk dirPath

/-- Result record of node's fs.statSync relevant to the probe. -/
structure Stat where
  isFile : Bool
  deriving DecidableEq

/-- Model of fs.statSync: fails (throws) when access is denied or nothing
exists at the path; otherwise reports whether a regular file is there. -/
def statSync (b : FsBehavior) (st : FsState) (p : FsPath) : Except Unit Stat :=
  if b.statOk p then
    match lookupA p st.files with
    | some _ => Except.ok ⟨true⟩
    | none => if elemP p st.dirs then Except.ok ⟨false⟩ else Except.error ()
  else Except.error ()

/-- The conventional action-file path of the specification: the file
sobject.qaName.quickAction-meta.xml under the fixed quick-actions directory. -/
def conventionalQuickActionPath (sobject qaName : List Char) : FsPath :=
  [("force-app".data), ("main".data), ("default".data), ("quickActions".data),
   sobject ++ (".".data) ++ qaName ++ (".quickAction-meta.xml".data)]

/-- LwcGenerationCommand.checkForExistingQuickAction: probe the filesystem for
the conventional action-file path; any statSync error is treated as absence. -/
def checkForExistingQuickAction (b : FsBehavior) (st : FsState)
    (sobject qaName : List Char) : Bool :=
  let expectedMetadataFilename :=
    sobject ++ (".".data) ++ qaName ++ (".quickAction-meta.xml".data)
  match statSync b st
      [("force-app".data), ("main".data), ("default".data),
       ("quickActions".data), expectedMetadataFilename] with
  | Except.ok stats => stats.isFile
  | Except.error _ => false

/-- Per-entity artifact status, as in lwcGenerationCommand.ts. -/
structure QuickActionStatus where
  view : Bool
  edit : Bool
  create : Bool
  deriving DecidableEq

/-- Result of LwcGenerationCommand.getSObjectsFromLandingPage. -/
structure GetSObjectsStatus where
  error : Option (List Char)
  sobjects : List (List Char)
  deriving DecidableEq

/-- LwcGenerationCommand.getSObjectsFromLandingPage.  The collaborators it
drives (WorkspaceUtils.getStaticResourcesDir, CommonUtils.loadJsonFromFile and
UEMParser.findSObjects, external to the specified core) are abstracted into
the landing argument: either the sobject list parsed from landing_page.json or
the error message of the failed access. -/
def getSObjectsFromLandingPage
    (landing : Except (List Char) (List (List Char))) : GetSObjectsStatus :=
  match landing with
  | Except.ok sobjects => ⟨none, sobjects⟩
  | Except.error msg => ⟨some msg, []⟩

/-- Status mapping over sobjects, as in lwcGenerationCommand.ts; the mapping
is an association list in insertion order. -/
structure SObjectQuickActionStatus where
  error : Option (List Char)
  sobjects : List (List Char × QuickActionStatus)
  deriving DecidableEq

/-- LwcGenerationCommand.checkForExistingQuickActions.  The source declares it
with no parameter: the probed entity list always comes from the landing page,
regardless of what callers pass. -/
def checkForExistingQuickActions
    (landing : Except (List Char) (List (List Char))) (b : FsBehavior)
    (st : FsState) : SObjectQuickActionStatus :=
  let sObjectsStatus := getSObjectsFromLandingPage landing
  match sObjectsStatus.error with
  | some msg => ⟨some msg, []⟩
  | none =>
    ⟨none, sObjectsStatus.sobjects.map (fun sobject =>
      (sobject,
        ⟨checkForExistingQuickAction b st sobject ("view".data),
         checkForExistingQuickAction b st sobject ("edit".data),
         checkForExistingQuickAction b st sobject ("create".data)⟩))⟩

/-- Generation kinds. -/
inductive GenKind where
  | view
  | edit
  | create
  deriving DecidableEq

/-- The field list hardcoded at the CodeBuilder construction site in
generateMissingLwcsAndQuickActions. -/
def hardcodedFields : List (List Char) := [("Name".data), ("AccountId".data)]

/-- Body of the per-entity branch of generateMissingLwcsAndQuickActions: the
three conditional generation calls, in source order, with the trace of the
generation operations invoked. -/
def generateEntityOps (b : FsBehavior) (extensionUri : FsPath)
    (sobject : List Char) (quickActions : QuickActionStatus) (st : FsState) :
    FsState × List GenKind :=
  let r1 := if quickActions.view = false then
      ((generateView b extensionUri sobject hardcodedFields st).1, [GenKind.view])
    else (st, [])
  let r2 := if quickActions.edit = false then
      ((generateEdit b extensionUri sobject hardcodedFields r1.1).1, [GenKind.edit])
    else (r1.1, [])
  let r3 := if quickActions.create = false then
      ((generateCreate b extensionUri sobject hardcodedFields r2.1).1,
       [GenKind.create])
    else (r2.1, [])
  (r3.1, r1.2 ++ r2.2 ++ r3.2)

/-- The entity loop of generateMissingLwcsAndQuickActions, with the trace of
invoked generation operations. -/
def genLoop (b : FsBehavior) (extensionUri : FsPath) :
    List (List Char × QuickActionStatus) → FsState →
    FsState × List (List Char × GenKind)
  | [], st => (st, [])
  | (sobject, quickActions) :: rest, st =>
    if quickActions.create = false ∨ quickActions.edit = false ∨
        quickActions.view = false then
      let r := generateEntityOps b extensionUri sobject quickActions st
      let rr := genLoop b extensionUri rest r.1
      (rr.1, (r.2.map (fun k => (sobject, k))) ++ rr.2)
    else genLoop b extensionUri rest st

/-- LwcGenerationCommand.generateMissingLwcsAndQuickActions: run the loop,
then re-probe and return the fresh status.  The source passes the input
mapping's keys to checkForExistingQuickActions, but that method's signature
takes no parameter, so the final probe re-derives its entity list from the
landing page. -/
def generateMissingLwcsAndQuickActions
    (landing : Except (List Char) (List (List Char))) (b : FsBehavior)
    (extensionUri : FsPath) (quickActionStatus : SObjectQuickActionStatus)
    (st : FsState) :
    FsState × List (List Char × GenKind) × SObjectQuickActionStatus :=
  let r := genLoop b extensionUri quickActionStatus.sobjects st
  (r.1, r.2, checkForExistingQuickActions landing b r.1)

/-- Flag of a status record selected by kind. -/
def kindFlag (qa : QuickActionStatus) : GenKind → Bool
  | GenKind.view => qa.view
  | GenKind.edit => qa.edit
  | GenKind.create => qa.create

/-- All generation kinds, in the loop's invocation order. -/
def allKinds : List GenKind := [GenKind.view, GenKind.edit, GenKind.create]

/-- Specification-side list of the kinds missing from a status record: exactly
those whose boolean is false. -/
def missingKinds (qa : QuickActionStatus) : List GenKind :=
  allKinds.filter (fun k => !kindFlag qa k)

theorem begins_self_append (p b : List Char) : begins p (p ++ b) = true := by
  induction p with
  | nil => rfl
  | cons c t ih => simp [begins, ih]

theorem noDollar_cons (c : Char) (t : List Char) :
    noDollar (c :: t) = true ↔ (¬ c = '$' ∧ noDollar t = true) := by
  simp [noDollar]

theorem getSubstitution_noDollar (matched before after : List Char) :
    ∀ rep : List Char, noDollar rep = true →
    getSubstitution matched before after rep = rep := by
  intro rep
  induction rep with
  | nil => intro _; rfl
  | cons c t ih =>
    intro h
    obtain ⟨hc, ht⟩ := (noDollar_cons c t).mp h
    unfold getSubstitution
    rw [if_neg hc, ih ht]

theorem replaceFirstAux_at (pat rep b : List Char) (before : List Char) :
    replaceFirstAux pat rep before (pat ++ b) =
      getSubstitution pat before b rep ++ b := by
  cases pat with
  | nil => cases b <;> simp [replaceFirstAux, begins]
  | cons c t =>
    have h1 : begins (c :: t) ((c :: t) ++ b) = true := begins_self_append _ _
    have h2 : ((c :: t) ++ b).drop (c :: t).length = b := List.drop_left _ _
    simp only [List.cons_append] at h1 h2 ⊢
    simp [replaceFirstAux, h1, h2]

theorem replaceFirstAux_cons_of_not (pat rep : List Char) (before : List Char)
    (c : Char) (t : List Char) (h : begins pat (c :: t) = false) :
    replaceFirstAux pat rep before (c :: t) =
      c :: replaceFirstAux pat rep (before ++ [c]) t := by
  cases pat with
  | nil => simp [begins] at h
  | cons p ps => simp [replaceFirstAux, h]

theorem replaceFirstAux_clean :
    ∀ (a p' rep b before : List Char), noDbl a = true → endsSlash a = false →
    replaceFirstAux ('/' :: '/' :: p') rep before
        (a ++ ('/' :: '/' :: p') ++ b) =
      a ++ getSubstitution ('/' :: '/' :: p') (before ++ a) b rep ++ b := by
  intro a
  induction a with
  | nil =>
    intro p' rep b before _ _
    simpa using replaceFirstAux_at ('/' :: '/' :: p') rep b before
  | cons x t ih =>
    intro p' rep b before hnd hes
    cases t with
    | nil =>
      have hx : ¬ x = '/' := by
        simpa [endsSlash] using hes
      have hb : begins ('/' :: '/' :: p') (x :: (('/' :: '/' :: p') ++ b)) =
          false := by
        simp [begins, Ne.symm hx]
      calc replaceFirstAux ('/' :: '/' :: p') rep before
            (([x] : List Char) ++ ('/' :: '/' :: p') ++ b)
          = replaceFirstAux ('/' :: '/' :: p') rep before
            (x :: (('/' :: '/' :: p') ++ b)) := by simp
        _ = x :: replaceFirstAux ('/' :: '/' :: p') rep (before ++ [x])
            (('/' :: '/' :: p') ++ b) :=
            replaceFirstAux_cons_of_not _ _ _ _ _ hb
        _ = x :: (getSubstitution ('/' :: '/' :: p') (before ++ [x]) b rep ++
            b) := by rw [replaceFirstAux_at]
        _ = ([x] : List Char) ++
            getSubstitution ('/' :: '/' :: p') (before ++ [x]) b rep ++ b := by
            simp
    | cons y t' =>
      have hxy : ¬ (x = '/' ∧ y = '/') := by
        intro hh
        simp [noDbl, hh.1, hh.2] at hnd
      have hnd' : noDbl (y :: t') = true := by
        have h := hnd
        simp [noDbl] at h
        exact h.2
      have hes' : endsSlash (y :: t') = false := hes
      have hb : begins ('/' :: '/' :: p')
          (x :: ((y :: t') ++ ('/' :: '/' :: p') ++ b)) = false := by
        by_cases hx : x = '/'
        · have hy : ¬ y = '/' := fun hy => hxy ⟨hx, hy⟩
          simp [begins, Ne.symm hy]
        · simp [begins, Ne.symm hx]
      calc replaceFirstAux ('/' :: '/' :: p') rep before
            ((x :: y :: t') ++ ('/' :: '/' :: p') ++ b)
          = replaceFirstAux ('/' :: '/' :: p') rep before
            (x :: ((y :: t') ++ ('/' :: '/' :: p') ++ b)) := by simp
        _ = x :: replaceFirstAux ('/' :: '/' :: p') rep (before ++ [x])
            ((y :: t') ++ ('/' :: '/' :: p') ++ b) :=
            replaceFirstAux_cons_of_not _ _ _ _ _ hb
        _ = x :: ((y :: t') ++
            getSubstitution ('/' :: '/' :: p') ((before ++ [x]) ++ (y :: t'))
              b rep ++ b) := by rw [ih p' rep b (before ++ [x]) hnd' hes']
        _ = (x :: y :: t') ++
            getSubstitution ('/' :: '/' :: p') (before ++ (x :: y :: t')) b
              rep ++ b := by simp

theorem replaceFirst_clean (a p' rep b : List Char) (hnd : noDbl a = true)
    (hes : endsSlash a = false) :
    replaceFirst ('/' :: '/' :: p') rep (a ++ ('/' :: '/' :: p') ++ b) =
      a ++ getSubstitution ('/' :: '/' :: p') a b rep ++ b := by
  have h := replaceFirstAux_clean a p' rep b [] hnd hes
  simpa [replaceFirst] using h

theorem marker_cons (k : List Char) :
    marker k = '/' :: '/' :: ('/' :: (k ++ ("///".data))) := rfl

theorem replaceFirst_marker_clean (k rep b a : List Char)
    (hnd : noDbl a = true) (hes : endsSlash a = false)
    (hdol : noDollar rep = true) :
    replaceFirst (marker k) rep (a ++ marker k ++ b) = a ++ rep ++ b := by
  have h := replaceFirst_clean a ('/' :: (k ++ ("///".data))) rep b hnd hes
  rw [marker_cons, h, getSubstitution_noDollar _ _ _ rep hdol]

/-- C1 counterexample: the claim fails over its stated scope of all
placeholder maps, because the source substitutes values through String
replace, which processes GetSubstitution dollar patterns: binding
TEMPLATE_FIELDS to the two-character value dollar-ampersand, the substitution
re-inserts the matched marker itself, so the first occurrence is not replaced
by the value — the rendered output is the unchanged template rather than the
output the claim prescribes. -/
theorem renderer_dollar_value_counterexample :
    (replaceAllTemplateVariables
        (("x".data) ++ marker kFIELDS ++ ("y".data) ++ marker kFIELDS ++
          ("z".data)) [(kFIELDS, ("$&".data))] =
      ("x".data) ++ marker kFIELDS ++ ("y".data) ++ marker kFIELDS ++
        ("z".data)) ∧
    ¬ (replaceAllTemplateVariables
        (("x".data) ++ marker kFIELDS ++ ("y".data) ++ marker kFIELDS ++
          ("z".data)) [(kFIELDS, ("$&".data))] =
      ("x".data) ++ ("$&".data) ++ ("y".data) ++ marker kFIELDS ++
        ("z".data)) :=
  ⟨by decide, by decide⟩

/-- C1 (amended): for a key whose value contains no dollar character (so that
GetSubstitution inserts it verbatim), the Template Renderer replaces only the
first occurrence of the marker of that key: for a placeholder map binding k to
such a v and a template in which the marker of k occurs twice (the leading
part a being free of double slashes and not ending in a slash, so that the
first listed occurrence really is the first), the rendered output substitutes
v for the first occurrence and leaves the second occurrence as literal marker
text. -/
theorem renderer_first_occurrence_only (k v a b c : List Char)
    (hnd : noDbl a = true) (hes : endsSlash a = false)
    (hv : noDollar v = true) :
    replaceAllTemplateVariables (a ++ marker k ++ b ++ marker k ++ c) [(k, v)] =
      a ++ v ++ b ++ marker k ++ c := by
  show replaceFirst (marker k) v (a ++ marker k ++ b ++ marker k ++ c) =
    a ++ v ++ b ++ marker k ++ c
  have h := replaceFirst_marker_clean k v (b ++ marker k ++ c) a hnd hes hv
  simp only [List.append_assoc] at h ⊢
  exact h

/-- Closed witness for the amended C1 at concrete strings. -/
theorem renderer_first_occurrence_only_witness :
    replaceAllTemplateVariables
      (("x".data) ++ marker kFIELDS ++ ("y".data) ++ marker kFIELDS ++
        ("z".data)) [(kFIELDS, ("V".data))] =
      ("x".data) ++ ("V".data) ++ ("y".data) ++ marker kFIELDS ++ ("z".data) :=
  renderer_first_occurrence_only kFIELDS ("V".data) ("x".data) ("y".data)
    ("z".data) (by decide) (by decide) (by decide)

/-- C10: for every entity name and field list the constructor populates all
ten fixed placeholder keys, and with the empty field list each of the six
field-derived accumulator keys holds the empty string. -/
theorem constructor_populates_all_keys (E : List Char) (F : List (List Char)) :
    (lookupVar (generateTemplateVariables E F) kOBJECT).isSome = true ∧
    (lookupVar (generateTemplateVariables E F) kCREATELABEL).isSome = true ∧
    (lookupVar (generateTemplateVariables E F) kEDITLABEL).isSome = true ∧
    (lookupVar (generateTemplateVariables E F) kVIEWLABEL).isSome = true ∧
    (lookupVar (generateTemplateVariables E F) kFIELDS).isSome = true ∧
    (lookupVar (generateTemplateVariables E F) kIMPORTS).isSome = true ∧
    (lookupVar (generateTemplateVariables E F) kCREATEHTML).isSome = true ∧
    (lookupVar (generateTemplateVariables E F) kEDITHTML).isSome = true ∧
    (lookupVar (generateTemplateVariables E F) kVARIABLES).isSome = true ∧
    (lookupVar (generateTemplateVariables E F) kASSIGNMENTS).isSome = true ∧
    lookupVar (generateTemplateVariables E []) kFIELDS = some [] ∧
    lookupVar (generateTemplateVariables E []) kIMPORTS = some [] ∧
    lookupVar (generateTemplateVariables E []) kCREATEHTML = some [] ∧
    lookupVar (generateTemplateVariables E []) kEDITHTML = some [] ∧
    lookupVar (generateTemplateVariables E []) kVARIABLES = some [] ∧
    lookupVar (generateTemplateVariables E []) kASSIGNMENTS = some [] :=
  ⟨rfl, rfl, rfl, rfl, rfl, rfl, rfl, rfl, rfl, rfl,
   rfl, rfl, rfl, rfl, rfl, rfl⟩

theorem noSlash_cons (c : Char) (t : List Char) :
    noSlash (c :: t) = true ↔ (¬ c = '/' ∧ noSlash t = true) := by
  simp [noSlash]

theorem noSlash_iff (l : List Char) :
    noSlash l = true ↔ ∀ c ∈ l, ¬ c = '/' := by
  induction l with
  | nil => simp [noSlash]
  | cons c t ih => simp [noSlash_cons, ih]

theorem startsSlash_append (x y : List Char) :
    startsSlash (x ++ y) = if x = [] then startsSlash y else startsSlash x := by
  cases x <;> simp [startsSlash]

theorem endsSlash_cons (c : Char) (l : List Char) :
    endsSlash (c :: l) = if l = [] then decide (c = '/') else endsSlash l := by
  cases l <;> simp [endsSlash]

theorem endsSlash_append (x y : List Char) :
    endsSlash (x ++ y) = if y = [] then endsSlash x else endsSlash y := by
  induction x with
  | nil => cases y <;> simp [endsSlash]
  | cons c t ih =>
    cases y with
    | nil => simp
    | cons d u =>
      rw [List.cons_append, endsSlash_cons,
        if_neg (show ¬ (t ++ d :: u = []) by simp), ih]
      simp

theorem noDbl_cons_iff (c : Char) (l : List Char) :
    noDbl (c :: l) = true ↔
      (noDbl l = true ∧ ¬ (c = '/' ∧ startsSlash l = true)) := by
  cases l with
  | nil => simp [noDbl, startsSlash]
  | cons d t =>
    simp only [noDbl, startsSlash, Bool.and_eq_true, Bool.not_eq_true',
      Bool.and_eq_false_iff, decide_eq_false_iff_not, decide_eq_true_eq]
    tauto

theorem noDbl_append (x y : List Char) (hx : noDbl x = true)
    (hy : noDbl y = true)
    (hb : endsSlash x = false ∨ startsSlash y = false) :
    noDbl (x ++ y) = true := by
  induction x with
  | nil => simpa using hy
  | cons c t ih =>
    obtain ⟨hT, hC⟩ := (noDbl_cons_iff c t).mp hx
    rw [List.cons_append, noDbl_cons_iff]
    constructor
    · apply ih hT
      rcases hb with hb | hb
      · cases t with
        | nil => exact Or.inl rfl
        | cons d u => exact Or.inl hb
      · exact Or.inr hb
    · rw [startsSlash_append]
      split
      · rename_i hte
        intro hh
        rcases hb with hb | hb
        · subst hte
          have : decide (c = '/') = false := by simpa [endsSlash] using hb
          simp [hh.1] at this
        · rw [hb] at hh
          exact absurd hh.2 (by simp)
      · exact hC

theorem cleanStr_spec (l : List Char) :
    cleanStr l = true ↔
      (noDbl l = true ∧ startsSlash l = false ∧ endsSlash l = false ∧
       noDollar l = true) := by
  simp [cleanStr, and_assoc]

theorem noDollar_iff (l : List Char) :
    noDollar l = true ↔ ∀ c ∈ l, ¬ c = '$' := by
  induction l with
  | nil => simp [noDollar]
  | cons c t ih => simp [noDollar_cons, ih]

theorem noDollar_append (x y : List Char) (hx : noDollar x = true)
    (hy : noDollar y = true) : noDollar (x ++ y) = true := by
  rw [noDollar_iff] at hx hy ⊢
  intro c hc
  rcases List.mem_append.mp hc with h | h
  · exact hx c h
  · exact hy c h

theorem cleanStr_append (x y : List Char) (hx : cleanStr x = true)
    (hy : cleanStr y = true) : cleanStr (x ++ y) = true := by
  rw [cleanStr_spec] at hx hy ⊢
  obtain ⟨x1, x2, x3, x4⟩ := hx
  obtain ⟨y1, y2, y3, y4⟩ := hy
  refine ⟨noDbl_append _ _ x1 y1 (Or.inl x3), ?_, ?_,
    noDollar_append _ _ x4 y4⟩
  · rw [startsSlash_append]
    split
    · exact y2
    · exact x2
  · rw [endsSlash_append]
    split
    · exact x3
    · exact y3

theorem startsSlash_false_of_noSlash (l : List Char) (h : noSlash l = true) :
    startsSlash l = false := by
  cases l with
  | nil => rfl
  | cons c t =>
    have hc : ¬ c = '/' := ((noSlash_cons c t).mp h).1
    simp [startsSlash, hc]

theorem endsSlash_false_of_noSlash (l : List Char) (h : noSlash l = true) :
    endsSlash l = false := by
  induction l with
  | nil => rfl
  | cons c t ih =>
    obtain ⟨hc, ht⟩ := (noSlash_cons c t).mp h
    rw [endsSlash_cons]
    split
    · simp [hc]
    · exact ih ht

theorem noDbl_of_noSlash (l : List Char) (h : noSlash l = true) :
    noDbl l = true := by
  induction l with
  | nil => rfl
  | cons c t ih =>
    obtain ⟨hc, ht⟩ := (noSlash_cons c t).mp h
    exact (noDbl_cons_iff c t).mpr ⟨ih ht, fun hh => hc hh.1⟩

theorem cleanStr_of_plain (l : List Char) (h : noSlash l = true)
    (hd : noDollar l = true) : cleanStr l = true :=
  (cleanStr_spec l).mpr ⟨noDbl_of_noSlash l h, startsSlash_false_of_noSlash l h,
    endsSlash_false_of_noSlash l h, hd⟩

theorem cleanStr_parts :
    ∀ ps : List (List Char), (∀ p ∈ ps, cleanStr p = true) →
    cleanStr ps.flatten = true := by
  intro ps
  induction ps with
  | nil => intro _; decide
  | cons p rest ih =>
    intro h
    rw [List.flatten_cons]
    exact cleanStr_append _ _ (h p (by simp))
      (ih (fun q hq => h q (by simp [hq])))

theorem hasSub_twoSlash_false (p' : List Char) :
    ∀ s : List Char, noDbl s = true → hasSub ('/' :: '/' :: p') s = false := by
  intro s
  induction s with
  | nil => intro _; rfl
  | cons c t ih =>
    intro h
    obtain ⟨ht, hc⟩ := (noDbl_cons_iff c t).mp h
    have hb : begins ('/' :: '/' :: p') (c :: t) = false := by
      cases t with
      | nil => simp [begins]
      | cons d u =>
        by_cases hcs : c = '/'
        · have hd : ¬ d = '/' := by
            intro hd
            exact hc ⟨hcs, by simp [startsSlash, hd]⟩
          simp [begins, Ne.symm hd]
        · simp [begins, Ne.symm hcs]
    simp [hasSub, hb, ih ht]

theorem hasSub_marker_false (k s : List Char) (h : noDbl s = true) :
    hasSub (marker k) s = false := by
  rw [marker_cons]
  exact hasSub_twoSlash_false _ s h

theorem toNat_ofNat_small (k : Nat) (h1 : 65 ≤ k) (h2 : k ≤ 122) :
    (Char.ofNat k).toNat = k := by
  have hv : Nat.isValidChar k := Or.inl (by omega)
  simp [Char.ofNat, hv, Char.toNat, Char.ofNatAux, UInt32.ofNat', UInt32.toNat,
    BitVec.toNat_ofNat]

theorem upChar_ne_slash (c : Char) (h : ¬ c = '/') : ¬ upChar c = '/' := by
  unfold upChar
  split
  · rename_i hr
    intro he
    have h1 : 97 ≤ c.toNat := hr.1
    have h2 : c.toNat ≤ 122 := hr.2
    have ht : (Char.ofNat (c.toNat - 32)).toNat = c.toNat - 32 :=
      toNat_ofNat_small _ (by omega) (by omega)
    rw [he] at ht
    have h47 : ('/' : Char).toNat = 47 := rfl
    omega
  · exact h

theorem downChar_ne_slash (c : Char) (h : ¬ c = '/') : ¬ downChar c = '/' := by
  unfold downChar
  split
  · rename_i hr
    intro he
    have h1 : 65 ≤ c.toNat := hr.1
    have h2 : c.toNat ≤ 90 := hr.2
    have ht : (Char.ofNat (c.toNat + 32)).toNat = c.toNat + 32 :=
      toNat_ofNat_small _ (by omega) (by omega)
    rw [he] at ht
    have h47 : ('/' : Char).toNat = 47 := rfl
    omega
  · exact h

theorem noSlash_map_upChar (l : List Char) (h : noSlash l = true) :
    noSlash (l.map upChar) = true := by
  rw [noSlash_iff] at h ⊢
  intro c hc
  obtain ⟨d, hd, rfl⟩ := List.mem_map.mp hc
  exact upChar_ne_slash d (h d hd)

theorem noSlash_map_downChar (l : List Char) (h : noSlash l = true) :
    noSlash (l.map downChar) = true := by
  rw [noSlash_iff] at h ⊢
  intro c hc
  obtain ⟨d, hd, rfl⟩ := List.mem_map.mp hc
  exact downChar_ne_slash d (h d hd)

theorem upChar_ne_dollar (c : Char) (h : ¬ c = '$') : ¬ upChar c = '$' := by
  unfold upChar
  split
  · rename_i hr
    intro he
    have h1 : 97 ≤ c.toNat := hr.1
    have h2 : c.toNat ≤ 122 := hr.2
    have ht : (Char.ofNat (c.toNat - 32)).toNat = c.toNat - 32 :=
      toNat_ofNat_small _ (by omega) (by omega)
    rw [he] at ht
    have h36 : ('$' : Char).toNat = 36 := rfl
    omega
  · exact h

theorem downChar_ne_dollar (c : Char) (h : ¬ c = '$') : ¬ downChar c = '$' := by
  unfold downChar
  split
  · rename_i hr
    intro he
    have h1 : 65 ≤ c.toNat := hr.1
    have h2 : c.toNat ≤ 90 := hr.2
    have ht : (Char.ofNat (c.toNat + 32)).toNat = c.toNat + 32 :=
      toNat_ofNat_small _ (by omega) (by omega)
    rw [he] at ht
    have h36 : ('$' : Char).toNat = 36 := rfl
    omega
  · exact h

theorem noDollar_map_upChar (l : List Char) (h : noDollar l = true) :
    noDollar (l.map upChar) = true := by
  rw [noDollar_iff] at h ⊢
  intro c hc
  obtain ⟨d, hd, rfl⟩ := List.mem_map.mp hc
  exact upChar_ne_dollar d (h d hd)

theorem noDollar_map_downChar (l : List Char) (h : noDollar l = true) :
    noDollar (l.map downChar) = true := by
  rw [noDollar_iff] at h ⊢
  intro c hc
  obtain ⟨d, hd, rfl⟩ := List.mem_map.mp hc
  exact downChar_ne_dollar d (h d hd)

theorem glue_clean (E : List Char) (hE : noSlash E = true)
    (hEd : noDollar E = true) :
    cleanStr ((" from \"@salesforce/schema/".data) ++ E ++ (".".data)) = true := by
  rw [cleanStr_spec]
  refine ⟨?_, ?_, ?_,
    noDollar_append _ _ (noDollar_append _ _ (by decide) hEd) (by decide)⟩
  · have h2 : noDbl (E ++ (".".data)) = true :=
      noDbl_append _ _ (noDbl_of_noSlash E hE) (by decide)
        (Or.inl (endsSlash_false_of_noSlash E hE))
    have h3 : startsSlash (E ++ (".".data)) = false := by
      rw [startsSlash_append]
      split
      · decide
      · exact startsSlash_false_of_noSlash E hE
    have h := noDbl_append ((" from \"@salesforce/schema/".data)) (E ++ (".".data))
      (by decide) h2 (Or.inr h3)
    simpa [List.append_assoc] using h
  · have h1 : startsSlash ((" from \"@salesforce/schema/".data) ++ E) = false := by
      rw [startsSlash_append, if_neg (by decide)]
      decide
    rw [startsSlash_append, if_neg (by simp), h1]
  · rw [endsSlash_append, if_neg (by decide)]
    decide

theorem fieldStep_clean (E f : List Char) (hE : noSlash E = true)
    (hEd : noDollar E = true) (hf : noSlash f = true)
    (hfd : noDollar f = true) (acc : FieldAcc)
    (h1 : cleanStr acc.fields = true) (h2 : cleanStr acc.imports = true)
    (h3 : cleanStr acc.createFieldsHtml = true)
    (h4 : cleanStr acc.editFieldsHtml = true)
    (h5 : cleanStr acc.importAliases = true)
    (h6 : cleanStr acc.variableAssignments = true) :
    cleanStr (fieldStep E acc f).fields = true ∧
    cleanStr (fieldStep E acc f).imports = true ∧
    cleanStr (fieldStep E acc f).createFieldsHtml = true ∧
    cleanStr (fieldStep E acc f).editFieldsHtml = true ∧
    cleanStr (fieldStep E acc f).importAliases = true ∧
    cleanStr (fieldStep E acc f).variableAssignments = true := by
  have hup : cleanStr (f.map upChar) = true :=
    cleanStr_of_plain _ (noSlash_map_upChar f hf) (noDollar_map_upChar f hfd)
  have hdown : cleanStr (f.map downChar) = true :=
    cleanStr_of_plain _ (noSlash_map_downChar f hf)
      (noDollar_map_downChar f hfd)
  have hfc : cleanStr f = true := cleanStr_of_plain f hf hfd
  refine ⟨?_, ?_, ?_, ?_, ?_, ?_⟩
  · exact cleanStr_append _ _
      (cleanStr_append _ _ h1 (cleanStr_append _ _ hup (by decide))) (by decide)
  · show cleanStr (acc.imports ++ ("import ".data) ++
      (f.map upChar ++ ("_FIELD".data)) ++
      (" from \"@salesforce/schema/".data) ++ E ++ (".".data) ++ f ++
      ("\";\n".data)) = true
    have e : acc.imports ++ ("import ".data) ++
        (f.map upChar ++ ("_FIELD".data)) ++
        (" from \"@salesforce/schema/".data) ++ E ++ (".".data) ++ f ++
        ("\";\n".data) =
        (acc.imports ++ (("import ".data) ++ (f.map upChar ++ ("_FIELD".data)))) ++
        (((" from \"@salesforce/schema/".data) ++ E ++ (".".data)) ++
          (f ++ ("\";\n".data))) := by
      simp [List.append_assoc]
    rw [e]
    exact cleanStr_append _ _
      (cleanStr_append _ _ h2
        (cleanStr_append _ _ (by decide)
          (cleanStr_append _ _ hup (by decide))))
      (cleanStr_append _ _ (glue_clean E hE hEd)
        (cleanStr_append _ _ hfc (by decide)))
  · show cleanStr (acc.createFieldsHtml ++
      ("<lightning-input-field field-name=\x7b".data) ++
      (f.map downChar ++ ("Field".data)) ++ ("\x7d value=\x7b".data) ++
      f.map downChar ++ ("\x7d></lightning-input-field>\n\t\t\t\t".data)) = true
    exact cleanStr_append _ _
      (cleanStr_append _ _
        (cleanStr_append _ _
          (cleanStr_append _ _
            (cleanStr_append _ _ h3 (by decide))
            (cleanStr_append _ _ hdown (by decide)))
          (by decide))
        hdown)
      (by decide)
  · show cleanStr (acc.editFieldsHtml ++
      ("<lightning-input-field field-name=\x7b".data) ++
      (f.map downChar ++ ("Field".data)) ++
      ("\x7d></lightning-input-field>\n\t\t\t\t".data)) = true
    exact cleanStr_append _ _
      (cleanStr_append _ _
        (cleanStr_append _ _ h4 (by decide))
        (cleanStr_append _ _ hdown (by decide)))
      (by decide)
  · show cleanStr (acc.importAliases ++ (f.map downChar ++ ("Field".data)) ++
      (" = ".data) ++ (f.map upChar ++ ("_FIELD".data)) ++ (";\n\t".data)) = true
    exact cleanStr_append _ _
      (cleanStr_append _ _
        (cleanStr_append _ _
          (cleanStr_append _ _ h5 (cleanStr_append _ _ hdown (by decide)))
          (by decide))
        (cleanStr_append _ _ hup (by decide)))
      (by decide)
  · show cleanStr (acc.variableAssignments ++ f.map downChar ++
      (" = \"\";\n\t".data)) = true
    exact cleanStr_append _ _ (cleanStr_append _ _ h6 hdown) (by decide)

theorem fieldAcc_fold_clean (E : List Char) (hE : noSlash E = true)
    (hEd : noDollar E = true) :
    ∀ F : List (List Char), (∀ f ∈ F, noSlash f = true ∧ noDollar f = true) →
    ∀ acc : FieldAcc,
    cleanStr acc.fields = true → cleanStr acc.imports = true →
    cleanStr acc.createFieldsHtml = true → cleanStr acc.editFieldsHtml = true →
    cleanStr acc.importAliases = true → cleanStr acc.variableAssignments = true →
    cleanStr (F.foldl (fieldStep E) acc).fields = true ∧
    cleanStr (F.foldl (fieldStep E) acc).imports = true ∧
    cleanStr (F.foldl (fieldStep E) acc).createFieldsHtml = true ∧
    cleanStr (F.foldl (fieldStep E) acc).editFieldsHtml = true ∧
    cleanStr (F.foldl (fieldStep E) acc).importAliases = true ∧
    cleanStr (F.foldl (fieldStep E) acc).variableAssignments = true := by
  intro F
  induction F with
  | nil =>
    intro _ acc h1 h2 h3 h4 h5 h6
    exact ⟨h1, h2, h3, h4, h5, h6⟩
  | cons f F' ih =>
    intro hF acc h1 h2 h3 h4 h5 h6
    have hf : noSlash f = true ∧ noDollar f = true := hF f (by simp)
    have hF' : ∀ g ∈ F', noSlash g = true ∧ noDollar g = true :=
      fun g hg => hF g (by simp [hg])
    obtain ⟨s1, s2, s3, s4, s5, s6⟩ :=
      fieldStep_clean E f hE hEd hf.1 hf.2 acc h1 h2 h3 h4 h5 h6
    rw [List.foldl_cons]
    exact ih hF' (fieldStep E acc f) s1 s2 s3 s4 s5 s6

theorem vars_values_clean (E : List Char) (F : List (List Char))
    (hE : noSlash E = true) (hEd : noDollar E = true)
    (hF : ∀ f ∈ F, noSlash f = true ∧ noDollar f = true) :
    ∀ p ∈ generateTemplateVariables E F, cleanStr p.2 = true := by
  have hEc : cleanStr E = true := cleanStr_of_plain E hE hEd
  obtain ⟨a1, a2, a3, a4, a5, a6⟩ := fieldAcc_fold_clean E hE hEd F hF
    ⟨[], [], [], [], [], []⟩ (by decide) (by decide) (by decide) (by decide)
    (by decide) (by decide)
  intro p hp
  have hlabel : ∀ pre post : List Char, cleanStr pre = true →
      cleanStr post = true → cleanStr (pre ++ E ++ post) = true := by
    intro pre post hpre hpost
    exact cleanStr_append _ _ (cleanStr_append _ _ hpre hEc) hpost
  simp only [generateTemplateVariables, List.mem_cons, List.not_mem_nil,
    or_false] at hp
  rcases hp with rfl | rfl | rfl | rfl | rfl | rfl | rfl | rfl | rfl | rfl
  · exact hEc
  · exact hlabel _ _ (by decide) (by decide)
  · exact hlabel _ _ (by decide) (by decide)
  · exact hlabel _ _ (by decide) (by decide)
  · exact a1
  · exact a2
  · exact a3
  · exact a4
  · exact a5
  · exact a6

theorem fold_replace_markers :
    ∀ (vs : List (List Char × List Char)) (acc : List Char),
    cleanStr acc = true → (∀ p ∈ vs, cleanStr p.2 = true) →
    vs.foldl (fun s kv => replaceFirst (marker kv.1) kv.2 s)
      (acc ++ markerConcat (vs.map Prod.fst)) = acc ++ valuesConcat vs := by
  intro vs
  induction vs with
  | nil =>
    intro acc _ _
    simp [markerConcat, valuesConcat]
  | cons kv rest ih =>
    intro acc hacc hvs
    obtain ⟨hnd, hss, hes, hdl⟩ := (cleanStr_spec acc).mp hacc
    obtain ⟨k1, k2, k3, k4⟩ := (cleanStr_spec kv.2).mp (hvs kv (by simp))
    have e1 : markerConcat ((kv :: rest).map Prod.fst) =
        marker kv.1 ++ markerConcat (rest.map Prod.fst) := by
      simp [markerConcat]
    have hstep : replaceFirst (marker kv.1) kv.2
        (acc ++ (marker kv.1 ++ markerConcat (rest.map Prod.fst))) =
        (acc ++ kv.2) ++ markerConcat (rest.map Prod.fst) := by
      have h := replaceFirst_marker_clean kv.1 kv.2
        (markerConcat (rest.map Prod.fst)) acc hnd hes k4
      simpa [List.append_assoc] using h
    rw [e1, List.foldl_cons]
    rw [hstep]
    have ihh := ih (acc ++ kv.2) (cleanStr_append _ _ hacc (hvs kv (by simp)))
      (fun p hp => hvs p (by simp [hp]))
    rw [ihh]
    simp [valuesConcat, List.append_assoc]

set_option maxRecDepth 100000

/-- C4 counterexample: badTemplate contains exactly one occurrence of each of
the ten declared placeholder markers, yet rendering it against the map
generate("A", []) leaves the TEMPLATE_IMPORTS marker in the output, because
substituting the empty TEMPLATE_FIELDS value splices a fresh occurrence of the
TEMPLATE_IMPORTS marker and the renderer consumes that one instead of the real
one. -/
theorem render_leaves_marker_counterexample :
    (templateKeys.map (fun k => countSub (marker k) badTemplate) =
      [1, 1, 1, 1, 1, 1, 1, 1, 1, 1]) ∧
    hasSub (marker kIMPORTS)
      (replaceAllTemplateVariables badTemplate
        (generateTemplateVariables ("A".data) [])) = true :=
  ⟨by decide, by decide⟩

/-- C4 (amended): for an entity name and field names free of both the slash
character (so that substituted values cannot complete a marker) and the
dollar character (so that GetSubstitution inserts them verbatim), rendering
the template that consists of exactly one occurrence of each declared
placeholder marker, in map iteration order, against the map produced by
generate(E, F) yields output containing no marker at all — in particular zero
remaining markers for keys present in the map. -/
theorem render_canonical_no_markers (E : List Char) (F : List (List Char))
    (hE : noSlash E = true) (hEd : noDollar E = true)
    (hF : ∀ f ∈ F, noSlash f = true ∧ noDollar f = true) (k : List Char) :
    hasSub (marker k)
      (replaceAllTemplateVariables canonicalTemplate
        (generateTemplateVariables E F)) = false := by
  have hvals := vars_values_clean E F hE hEd hF
  have h := fold_replace_markers (generateTemplateVariables E F) [] (by decide)
    hvals
  have e2 : replaceAllTemplateVariables canonicalTemplate
      (generateTemplateVariables E F) =
      valuesConcat (generateTemplateVariables E F) := by
    rw [replaceAllTemplateVariables]
    rw [show canonicalTemplate =
      [] ++ markerConcat ((generateTemplateVariables E F).map Prod.fst) from rfl]
    rw [h]
    simp
  rw [e2]
  have hclean : cleanStr (valuesConcat (generateTemplateVariables E F)) = true := by
    apply cleanStr_parts
    intro p hp
    obtain ⟨q, hq, rfl⟩ := List.mem_map.mp hp
    exact hvals q hq
  exact hasSub_marker_false k _ ((cleanStr_spec _).mp hclean).1

/-- Closed witness for the amended C4 theorem at entity Account with fields
Name and AccountId. -/
theorem render_canonical_no_markers_witness :
    hasSub (marker kFIELDS)
      (replaceAllTemplateVariables canonicalTemplate
        (generateTemplateVariables ("Account".data)
          [("Name".data), ("AccountId".data)])) = false :=
  render_canonical_no_markers ("Account".data)
    [("Name".data), ("AccountId".data)] (by decide) (by decide) (by decide)
    kFIELDS

/-- C5: generateView, generateEdit and generateCreate return true
unconditionally: for every filesystem behaviour (including injected
template-read failures, directory-creation failures and write failures), every
entity name, field list and starting state, the boolean result is true.
Totality of the definitions models that no exception escapes to the caller. -/
theorem generate_ops_return_true (b : FsBehavior) (u : FsPath) (E : List Char)
    (F : List (List Char)) (st : FsState) :
    (generateView b u E F st).2.2 = true ∧
    (generateEdit b u E F st).2.2 = true ∧
    (generateCreate b u E F st).2.2 = true :=
  ⟨rfl, rfl, rfl⟩

theorem writeAttempt_dirs (b : FsBehavior) (st : FsState) (D : FsPath)
    (f c : List Char) : (writeAttempt b st D f c).1.dirs = st.dirs := by
  simp only [writeAttempt]
  split <;> rfl

theorem writeAttempt_writes (b : FsBehavior) (st : FsState) (D : FsPath)
    (f c : List Char) :
    (writeAttempt b st D f c).2 =
      if b.writeOk (D ++ [f]) then [(D ++ [f], c)] else [] := by
  simp only [writeAttempt]
  split <;> simp_all

theorem writeAttempt_files (b : FsBehavior) (st : FsState) (D : FsPath)
    (f c : List Char) :
    (writeAttempt b st D f c).1.files =
      if b.writeOk (D ++ [f]) then (D ++ [f], c) :: st.files else st.files := by
  simp only [writeAttempt]
  split <;> simp_all

theorem wfc_dirs (b : FsBehavior) (st : FsState) (D : FsPath)
    (f c : List Char) :
    (writeFileContents b st D f c).1.dirs = dirsUpd b D st.dirs := by
  unfold writeFileContents dirsUpd
  by_cases h1 : elemP D st.dirs = true
  · rw [if_pos h1, if_pos h1, writeAttempt_dirs]
  · rw [if_neg h1, if_neg h1]
    by_cases h2 : b.mkdirOk D = true
    · rw [if_pos h2, if_pos h2, writeAttempt_dirs]
    · rw [if_neg h2, if_neg h2]

theorem wfc_writes (b : FsBehavior) (st : FsState) (D : FsPath)
    (f c : List Char) :
    (writeFileContents b st D f c).2 =
      if dirReady b st.dirs D && b.writeOk (D ++ [f]) then [(D ++ [f], c)]
      else [] := by
  unfold writeFileContents
  by_cases h1 : elemP D st.dirs = true
  · rw [if_pos h1, writeAttempt_writes]
    simp [dirReady, h1]
  · rw [if_neg h1]
    by_cases h2 : b.mkdirOk D = true
    · rw [if_pos h2, writeAttempt_writes]
      simp [dirReady, h2]
    · rw [if_neg h2]
      simp only [Bool.not_eq_true] at h1 h2
      simp [dirReady, h1, h2]

theorem lookupA_cons_ne (q p : FsPath) (c : List Char)
    (t : List (FsPath × List Char)) (h : ¬ (p = q)) :
    lookupA q ((p, c) :: t) = lookupA q t := by
  simp [lookupA, h]

theorem wfc_files_lookup_ne (b : FsBehavior) (st : FsState) (D : FsPath)
    (f c : List Char) (q : FsPath) (hq : ¬ (q = D ++ [f])) :
    lookupA q (writeFileContents b st D f c).1.files = lookupA q st.files := by
  have hne : ¬ (D ++ [f] = q) := fun hh => hq hh.symm
  unfold writeFileContents
  by_cases h1 : elemP D st.dirs = true
  · rw [if_pos h1, writeAttempt_files]
    split
    · exact lookupA_cons_ne _ _ _ _ hne
    · rfl
  · rw [if_neg h1]
    by_cases h2 : b.mkdirOk D = true
    · rw [if_pos h2, writeAttempt_files]
      split
      · exact lookupA_cons_ne _ _ _ _ hne
      · rfl
    · rw [if_neg h2]

theorem readFileContents_wfc (b : FsBehavior) (u : FsPath) (st : FsState)
    (D : FsPath) (f c : List Char) (p : FsPath) (h : ¬ (u ++ p = D ++ [f])) :
    readFileContents b u (writeFileContents b st D f c).1 p =
      readFileContents b u st p := by
  unfold readFileContents
  rw [wfc_files_lookup_ne b st D f c _ h]

theorem elemP_cons (D q : FsPath) (t : List FsPath) :
    elemP D (q :: t) = if q = D then true else elemP D t := rfl

theorem dirReady_dirsUpd_same (b : FsBehavior) (D : FsPath)
    (ds : List FsPath) : dirReady b (dirsUpd b D ds) D = dirReady b ds D := by
  unfold dirReady dirsUpd
  by_cases h1 : elemP D ds = true
  · rw [if_pos h1]
  · rw [if_neg h1]
    by_cases h2 : b.mkdirOk D = true
    · rw [if_pos h2]
      simp [elemP_cons, h2]
    · rw [if_neg h2]

theorem dirReady_dirsUpd_ne (b : FsBehavior) (D E : FsPath)
    (ds : List FsPath) (h : ¬ (E = D)) :
    dirReady b (dirsUpd b E ds) D = dirReady b ds D := by
  unfold dirReady dirsUpd
  by_cases h1 : elemP E ds = true
  · rw [if_pos h1]
  · rw [if_neg h1]
    by_cases h2 : b.mkdirOk E = true
    · rw [if_pos h2]
      simp [elemP_cons, h]
    · rw [if_neg h2]

theorem tmpl4_ne_lwcWrite (u : FsPath) (tn fe n g : List Char) :
    ¬ (u ++ [(['r', 'e', 's', 'o', 'u', 'r', 'c', 'e', 's'] : List Char), ['t', 'e', 'm', 'p', 'l', 'a', 't', 'e', 's'], tn, fe] =
      ([['f', 'o', 'r', 'c', 'e', '-', 'a', 'p', 'p'], ['m', 'a', 'i', 'n'], ['d', 'e', 'f', 'a', 'u', 'l', 't'], ['l', 'w', 'c'], n, g] : FsPath)) := by
  intro h
  have hl : u.length + 4 = 6 := by simpa using congrArg List.length h
  rcases u with _ | ⟨a, u⟩
  · simp only [List.length_nil] at hl
    omega
  rcases u with _ | ⟨b, u⟩
  · simp only [List.length_cons, List.length_nil] at hl
    omega
  rcases u with _ | ⟨c, u⟩
  · have hcomp : ((['r', 'e', 's', 'o', 'u', 'r', 'c', 'e', 's'] : List Char)) = ['d', 'e', 'f', 'a', 'u', 'l', 't'] := by
      have h2 := congrArg (fun l : FsPath => l[2]?) h
      simpa using h2
    exact absurd hcomp (by decide)
  · simp only [List.length_cons] at hl
    omega

theorem tmpl4_ne_qaWrite (u : FsPath) (tn fe g : List Char) :
    ¬ (u ++ [(['r', 'e', 's', 'o', 'u', 'r', 'c', 'e', 's'] : List Char), ['t', 'e', 'm', 'p', 'l', 'a', 't', 'e', 's'], tn, fe] =
      ([['f', 'o', 'r', 'c', 'e', '-', 'a', 'p', 'p'], ['m', 'a', 'i', 'n'], ['d', 'e', 'f', 'a', 'u', 'l', 't'], ['q', 'u', 'i', 'c', 'k', 'A', 'c', 't', 'i', 'o', 'n', 's'], g] : FsPath)) := by
  intro h
  have hl : u.length + 4 = 5 := by simpa using congrArg List.length h
  rcases u with _ | ⟨a, u⟩
  · simp only [List.length_nil] at hl
    omega
  rcases u with _ | ⟨b, u⟩
  · have hcomp : ((['r', 'e', 's', 'o', 'u', 'r', 'c', 'e', 's'] : List Char)) = ['m', 'a', 'i', 'n'] := by
      have h2 := congrArg (fun l : FsPath => l[1]?) h
      simpa using h2
    exact absurd hcomp (by decide)
  · simp only [List.length_cons] at hl
    omega

theorem tmpl3_ne_lwcWrite (u : FsPath) (x n g : List Char) :
    ¬ (u ++ [(['r', 'e', 's', 'o', 'u', 'r', 'c', 'e', 's'] : List Char), ['t', 'e', 'm', 'p', 'l', 'a', 't', 'e', 's'], x] =
      ([['f', 'o', 'r', 'c', 'e', '-', 'a', 'p', 'p'], ['m', 'a', 'i', 'n'], ['d', 'e', 'f', 'a', 'u', 'l', 't'], ['l', 'w', 'c'], n, g] : FsPath)) := by
  intro h
  have hl : u.length + 3 = 6 := by simpa using congrArg List.length h
  rcases u with _ | ⟨a, u⟩
  · simp only [List.length_nil] at hl
    omega
  rcases u with _ | ⟨b, u⟩
  · simp only [List.length_cons, List.length_nil] at hl
    omega
  rcases u with _ | ⟨c, u⟩
  · simp only [List.length_cons, List.length_nil] at hl
    omega
  rcases u with _ | ⟨d, u⟩
  · have hcomp : ((['r', 'e', 's', 'o', 'u', 'r', 'c', 'e', 's'] : List Char)) = ['l', 'w', 'c'] := by
      have h2 := congrArg (fun l : FsPath => l[3]?) h
      simpa using h2
    exact absurd hcomp (by decide)
  · simp only [List.length_cons] at hl
    omega

theorem tmpl3_ne_qaWrite (u : FsPath) (x g : List Char) :
    ¬ (u ++ [(['r', 'e', 's', 'o', 'u', 'r', 'c', 'e', 's'] : List Char), ['t', 'e', 'm', 'p', 'l', 'a', 't', 'e', 's'], x] =
      ([['f', 'o', 'r', 'c', 'e', '-', 'a', 'p', 'p'], ['m', 'a', 'i', 'n'], ['d', 'e', 'f', 'a', 'u', 'l', 't'], ['q', 'u', 'i', 'c', 'k', 'A', 'c', 't', 'i', 'o', 'n', 's'], g] : FsPath)) := by
  intro h
  have hl : u.length + 3 = 5 := by simpa using congrArg List.length h
  rcases u with _ | ⟨a, u⟩
  · simp only [List.length_nil] at hl
    omega
  rcases u with _ | ⟨b, u⟩
  · simp only [List.length_cons, List.length_nil] at hl
    omega
  rcases u with _ | ⟨c, u⟩
  · have hcomp : ((['r', 'e', 's', 'o', 'u', 'r', 'c', 'e', 's'] : List Char)) = ['d', 'e', 'f', 'a', 'u', 'l', 't'] := by
      have h2 := congrArg (fun l : FsPath => l[2]?) h
      simpa using h2
    exact absurd hcomp (by decide)
  · simp only [List.length_cons] at hl
    omega

theorem lwcDirP_ne_qaDirP (n : List Char) :
    ¬ (([['f', 'o', 'r', 'c', 'e', '-', 'a', 'p', 'p'], ['m', 'a', 'i', 'n'], ['d', 'e', 'f', 'a', 'u', 'l', 't'], ['l', 'w', 'c'], n] : FsPath) = [['f', 'o', 'r', 'c', 'e', '-', 'a', 'p', 'p'], ['m', 'a', 'i', 'n'], ['d', 'e', 'f', 'a', 'u', 'l', 't'], ['q', 'u', 'i', 'c', 'k', 'A', 'c', 't', 'i', 'o', 'n', 's']]) := by
  simp

theorem qaDirP_ne_lwcDirP (n : List Char) :
    ¬ (([['f', 'o', 'r', 'c', 'e', '-', 'a', 'p', 'p'], ['m', 'a', 'i', 'n'], ['d', 'e', 'f', 'a', 'u', 'l', 't'], ['q', 'u', 'i', 'c', 'k', 'A', 'c', 't', 'i', 'o', 'n', 's']] : FsPath) = [['f', 'o', 'r', 'c', 'e', '-', 'a', 'p', 'p'], ['m', 'a', 'i', 'n'], ['d', 'e', 'f', 'a', 'u', 'l', 't'], ['l', 'w', 'c'], n]) := by
  simp

theorem dirReady_upd_qa_lwc (b : FsBehavior) (x : List FsPath) (n : List Char) :
    dirReady b (dirsUpd b ([['f', 'o', 'r', 'c', 'e', '-', 'a', 'p', 'p'], ['m', 'a', 'i', 'n'], ['d', 'e', 'f', 'a', 'u', 'l', 't'], ['q', 'u', 'i', 'c', 'k', 'A', 'c', 't', 'i', 'o', 'n', 's']] : FsPath) x)
      [['f', 'o', 'r', 'c', 'e', '-', 'a', 'p', 'p'], ['m', 'a', 'i', 'n'], ['d', 'e', 'f', 'a', 'u', 'l', 't'], ['l', 'w', 'c'], n] =
    dirReady b x [['f', 'o', 'r', 'c', 'e', '-', 'a', 'p', 'p'], ['m', 'a', 'i', 'n'], ['d', 'e', 'f', 'a', 'u', 'l', 't'], ['l', 'w', 'c'], n] :=
  dirReady_dirsUpd_ne b _ _ x (qaDirP_ne_lwcDirP n)

theorem dirReady_upd_lwc_qa (b : FsBehavior) (x : List FsPath) (n : List Char) :
    dirReady b (dirsUpd b ([['f', 'o', 'r', 'c', 'e', '-', 'a', 'p', 'p'], ['m', 'a', 'i', 'n'], ['d', 'e', 'f', 'a', 'u', 'l', 't'], ['l', 'w', 'c'], n] : FsPath) x)
      [['f', 'o', 'r', 'c', 'e', '-', 'a', 'p', 'p'], ['m', 'a', 'i', 'n'], ['d', 'e', 'f', 'a', 'u', 'l', 't'], ['q', 'u', 'i', 'c', 'k', 'A', 'c', 't', 'i', 'o', 'n', 's']] =
    dirReady b x [['f', 'o', 'r', 'c', 'e', '-', 'a', 'p', 'p'], ['m', 'a', 'i', 'n'], ['d', 'e', 'f', 'a', 'u', 'l', 't'], ['q', 'u', 'i', 'c', 'k', 'A', 'c', 't', 'i', 'o', 'n', 's']] :=
  dirReady_dirsUpd_ne b _ _ x (lwcDirP_ne_qaDirP n)

theorem dirReady_allOk (ds : List FsPath) (D : FsPath) :
    dirReady allOk ds D = true := by
  simp [dirReady, allOk]

theorem allOk_writeOk (p : FsPath) : allOk.writeOk p = true := rfl

theorem lookupVar_object (E : List Char) (F : List (List Char)) :
    lookupVar (generateTemplateVariables E F) kOBJECT = some E := rfl

set_option maxHeartbeats 4000000 in
theorem copy_then_qa_writes_stable (b : FsBehavior) (u : FsPath)
    (vars : List (List Char × List Char)) (tname lwc label icon : List Char)
    (st : FsState) :
    (copyTemplateFiles b u vars tname lwc
        ((createQuickAction b u vars label lwc icon
          (copyTemplateFiles b u vars tname lwc st).1).1)).2 =
      (copyTemplateFiles b u vars tname lwc st).2 ∧
    (createQuickAction b u vars label lwc icon
        (copyTemplateFiles b u vars tname lwc
          ((createQuickAction b u vars label lwc icon
            (copyTemplateFiles b u vars tname lwc st).1).1)).1).2 =
      (createQuickAction b u vars label lwc icon
        (copyTemplateFiles b u vars tname lwc st).1).2 := by
  constructor <;>
  simp only [copyTemplateFiles, createQuickAction,
    TEMPLATE_FILE_EXTENSIONS, List.foldl_cons, List.foldl_nil,
    List.cons_append, List.nil_append, not_false_eq_true, ne_eq,
    wfc_writes, wfc_dirs, dirReady_dirsUpd_same, dirReady_upd_qa_lwc,
    dirReady_upd_lwc_qa,
    readFileContents_wfc, tmpl4_ne_lwcWrite, tmpl4_ne_qaWrite,
    tmpl3_ne_lwcWrite, tmpl3_ne_qaWrite,
    Option.getD_some, List.append_nil]

/-- C6: running a Generation Orchestrator operation twice for the same
entity and kind, over the same template store, extension root and field list,
produces exactly the same write list — the same destination paths with
byte-identical contents — on the second run as on the first, for every
filesystem behaviour. -/
theorem generation_idempotent (b : FsBehavior) (u : FsPath) (E : List Char)
    (F : List (List Char)) (st : FsState) :
    (generateView b u E F ((generateView b u E F st).1)).2.1 =
      (generateView b u E F st).2.1 ∧
    (generateEdit b u E F ((generateEdit b u E F st).1)).2.1 =
      (generateEdit b u E F st).2.1 ∧
    (generateCreate b u E F ((generateCreate b u E F st).1)).2.1 =
      (generateCreate b u E F st).2.1 := by
  refine ⟨?_, ?_, ?_⟩
  · obtain ⟨h1, h2⟩ := copy_then_qa_writes_stable b u
      (generateTemplateVariables E F) ("viewRecord".data)
      (("view".data) ++ E ++ ("Record".data)) ("View".data) [] st
    simp only [generateView]
    rw [h1, h2]
  · obtain ⟨h1, h2⟩ := copy_then_qa_writes_stable b u
      (generateTemplateVariables E F) ("editRecord".data)
      (("edit".data) ++ E ++ ("Record".data)) ("Edit".data)
      ("editActionIcon".data) st
    simp only [generateEdit]
    rw [h1, h2]
  · obtain ⟨h1, h2⟩ := copy_then_qa_writes_stable b u
      (generateTemplateVariables E F) ("createRecord".data)
      (("create".data) ++ E ++ ("Record".data)) ("Create".data) [] st
    simp only [generateCreate]
    rw [h1, h2]

theorem downChar_V : downChar 'V' = 'v' := by decide

theorem downChar_i : downChar 'i' = 'i' := by decide

theorem downChar_e : downChar 'e' = 'e' := by decide

theorem downChar_w : downChar 'w' = 'w' := by decide

theorem downChar_E : downChar 'E' = 'e' := by decide

theorem downChar_d : downChar 'd' = 'd' := by decide

theorem downChar_t : downChar 't' = 't' := by decide

theorem downChar_C : downChar 'C' = 'c' := by decide

theorem downChar_r : downChar 'r' = 'r' := by decide

theorem downChar_a : downChar 'a' = 'a' := by decide

/-- C7: under a filesystem behaviour in which every directory creation and
write succeeds, one generation operation writes exactly five files: for each
kind, the four component files named kindVerb-EntityName-Record dot extension,
for the extensions css, html, js and js-meta.xml, inside the subdirectory of
that name under the fixed LWC destination directory, plus the one
action-registration file EntityName dot kind-lowercase dot
quickAction-meta.xml in the fixed quick-actions directory. -/
theorem one_generation_writes_five_files (u : FsPath) (E : List Char)
    (F : List (List Char)) (st : FsState) :
    (generateView allOk u E F st).2.1.map Prod.fst =
      [[("force-app".data), ("main".data), ("default".data), ("lwc".data),
        ("view".data) ++ E ++ ("Record".data),
        ("view".data) ++ E ++ ("Record.css".data)],
       [("force-app".data), ("main".data), ("default".data), ("lwc".data),
        ("view".data) ++ E ++ ("Record".data),
        ("view".data) ++ E ++ ("Record.html".data)],
       [("force-app".data), ("main".data), ("default".data), ("lwc".data),
        ("view".data) ++ E ++ ("Record".data),
        ("view".data) ++ E ++ ("Record.js".data)],
       [("force-app".data), ("main".data), ("default".data), ("lwc".data),
        ("view".data) ++ E ++ ("Record".data),
        ("view".data) ++ E ++ ("Record.js-meta.xml".data)],
       [("force-app".data), ("main".data), ("default".data),
        ("quickActions".data), E ++ (".view.quickAction-meta.xml".data)]] ∧
    (generateEdit allOk u E F st).2.1.map Prod.fst =
      [[("force-app".data), ("main".data), ("default".data), ("lwc".data),
        ("edit".data) ++ E ++ ("Record".data),
        ("edit".data) ++ E ++ ("Record.css".data)],
       [("force-app".data), ("main".data), ("default".data), ("lwc".data),
        ("edit".data) ++ E ++ ("Record".data),
        ("edit".data) ++ E ++ ("Record.html".data)],
       [("force-app".data), ("main".data), ("default".data), ("lwc".data),
        ("edit".data) ++ E ++ ("Record".data),
        ("edit".data) ++ E ++ ("Record.js".data)],
       [("force-app".data), ("main".data), ("default".data), ("lwc".data),
        ("edit".data) ++ E ++ ("Record".data),
        ("edit".data) ++ E ++ ("Record.js-meta.xml".data)],
       [("force-app".data), ("main".data), ("default".data),
        ("quickActions".data), E ++ (".edit.quickAction-meta.xml".data)]] ∧
    (generateCreate allOk u E F st).2.1.map Prod.fst =
      [[("force-app".data), ("main".data), ("default".data), ("lwc".data),
        ("create".data) ++ E ++ ("Record".data),
        ("create".data) ++ E ++ ("Record.css".data)],
       [("force-app".data), ("main".data), ("default".data), ("lwc".data),
        ("create".data) ++ E ++ ("Record".data),
        ("create".data) ++ E ++ ("Record.html".data)],
       [("force-app".data), ("main".data), ("default".data), ("lwc".data),
        ("create".data) ++ E ++ ("Record".data),
        ("create".data) ++ E ++ ("Record.js".data)],
       [("force-app".data), ("main".data), ("default".data), ("lwc".data),
        ("create".data) ++ E ++ ("Record".data),
        ("create".data) ++ E ++ ("Record.js-meta.xml".data)],
       [("force-app".data), ("main".data), ("default".data),
        ("quickActions".data), E ++ (".create.quickAction-meta.xml".data)]] := by
  refine ⟨?_, ?_, ?_⟩ <;>
  simp only [generateView, generateEdit, generateCreate, copyTemplateFiles,
    createQuickAction, TEMPLATE_FILE_EXTENSIONS, List.foldl_cons,
    List.foldl_nil, List.cons_append, List.nil_append, List.append_assoc,
    not_false_eq_true, ne_eq, wfc_writes, wfc_dirs, dirReady_allOk,
    allOk_writeOk, readFileContents_wfc, tmpl4_ne_lwcWrite, tmpl4_ne_qaWrite,
    tmpl3_ne_lwcWrite, tmpl3_ne_qaWrite, lookupVar_object, Option.getD_some,
    List.append_nil, Bool.and_self, if_true, List.map_cons, List.map_nil,
    List.map_append, downChar_V, downChar_i, downChar_e, downChar_w,
    downChar_E, downChar_d, downChar_t, downChar_C, downChar_r, downChar_a]

/-- C8: for entity Account and fields Name, AccountId, the Variable Generator
produces TEMPLATE_FIELDS of NAME_FIELD comma ACCOUNTID_FIELD comma-space and
TEMPLATE_IMPORTS of exactly the two schema import lines, and the View-kind
action file is written under the name Account.view.quickAction-meta.xml in the
quick-actions directory. -/
theorem account_scenario (u : FsPath) (st : FsState) :
    lookupVar (generateTemplateVariables ("Account".data)
        [("Name".data), ("AccountId".data)]) kFIELDS =
      some ("NAME_FIELD, ACCOUNTID_FIELD, ".data) ∧
    lookupVar (generateTemplateVariables ("Account".data)
        [("Name".data), ("AccountId".data)]) kIMPORTS =
      some ("import NAME_FIELD from \"@salesforce/schema/Account.Name\";\nimport ACCOUNTID_FIELD from \"@salesforce/schema/Account.AccountId\";\n".data) ∧
    (generateView allOk u ("Account".data) [("Name".data), ("AccountId".data)]
        st).2.1.map Prod.fst =
      [[("force-app".data), ("main".data), ("default".data), ("lwc".data),
        ("viewAccountRecord".data), ("viewAccountRecord.css".data)],
       [("force-app".data), ("main".data), ("default".data), ("lwc".data),
        ("viewAccountRecord".data), ("viewAccountRecord.html".data)],
       [("force-app".data), ("main".data), ("default".data), ("lwc".data),
        ("viewAccountRecord".data), ("viewAccountRecord.js".data)],
       [("force-app".data), ("main".data), ("default".data), ("lwc".data),
        ("viewAccountRecord".data), ("viewAccountRecord.js-meta.xml".data)],
       [("force-app".data), ("main".data), ("default".data),
        ("quickActions".data),
        ("Account.view.quickAction-meta.xml".data)]] := by
  refine ⟨by decide, by decide, ?_⟩
  simp only [generateView, copyTemplateFiles, createQuickAction,
    TEMPLATE_FILE_EXTENSIONS, List.foldl_cons, List.foldl_nil,
    List.cons_append, List.nil_append, List.append_assoc,
    not_false_eq_true, ne_eq, wfc_writes, wfc_dirs, dirReady_allOk,
    allOk_writeOk, readFileContents_wfc, tmpl4_ne_lwcWrite, tmpl4_ne_qaWrite,
    tmpl3_ne_lwcWrite, tmpl3_ne_qaWrite, lookupVar_object, Option.getD_some,
    List.append_nil, Bool.and_self, if_true, List.map_cons, List.map_nil,
    List.map_append, downChar_V, downChar_i, downChar_e, downChar_w]

theorem statSync_ok_file_iff (b : FsBehavior) (st : FsState) (p : FsPath) :
    (match statSync b st p with
      | Except.ok stats => stats.isFile
      | Except.error _ => false) = true ↔
      (b.statOk p = true ∧ ∃ c, lookupA p st.files = some c) := by
  unfold statSync
  by_cases h1 : b.statOk p = true
  · rw [if_pos h1]
    cases hl : lookupA p st.files with
    | some c => simp [h1, hl]
    | none =>
      by_cases h2 : elemP p st.dirs = true
      · simp [h1, hl, h2]
      · simp [h1, hl, h2]
  · rw [if_neg h1]
    simp [h1]

/-- C9: the existence probe returns true exactly when the filesystem stat of
the conventional action-file path sobject.qaName.quickAction-meta.xml under
the fixed quick-actions directory succeeds and finds a regular file there (in
the model: the access is permitted and a file has been written at that path);
every stat failure — access denied or nothing at the path — yields false, and
no error propagates to the caller. -/
theorem probe_conventional_path_iff (b : FsBehavior) (st : FsState)
    (sobject qaName : List Char) :
    checkForExistingQuickAction b st sobject qaName = true ↔
      (b.statOk (conventionalQuickActionPath sobject qaName) = true ∧
       ∃ c, lookupA (conventionalQuickActionPath sobject qaName) st.files =
         some c) :=
  statSync_ok_file_iff b st (conventionalQuickActionPath sobject qaName)

/-- Closed witness for C9: on a filesystem holding exactly the conventional
file for Account.view, the probe returns true. -/
theorem probe_conventional_path_iff_witness :
    checkForExistingQuickAction allOk
      ⟨[(conventionalQuickActionPath ("Account".data) ("view".data), [])], []⟩
      ("Account".data) ("view".data) = true :=
  (probe_conventional_path_iff allOk
    ⟨[(conventionalQuickActionPath ("Account".data) ("view".data), [])], []⟩
    ("Account".data) ("view".data)).mpr ⟨rfl, [], by decide⟩

/-- C3: the Reconciliation Driver's loop invokes the Generation Orchestrator
exactly for the kinds whose boolean is false, never for kinds already marked
present: its invocation trace is the concatenation, over the input mapping,
of the missing kinds of each entity; in particular a status of view true,
edit false, create true yields exactly the single operation generateEdit. -/
theorem loop_invokes_exactly_missing (b : FsBehavior) (u : FsPath)
    (input : List (List Char × QuickActionStatus)) (st : FsState) :
    (genLoop b u input st).2 =
      input.flatMap (fun p => (missingKinds p.2).map (fun k => (p.1, k))) ∧
    missingKinds ⟨true, false, true⟩ = [GenKind.edit] := by
  constructor
  · induction input generalizing st with
    | nil => rfl
    | cons hd tl ih =>
      obtain ⟨sobject, qa⟩ := hd
      obtain ⟨v, e, c⟩ := qa
      cases v <;> cases e <;> cases c <;>
        simp [genLoop, generateEntityOps, missingKinds, allKinds, kindFlag, ih]
  · rfl

/-- C2, evaluated at the failing input: with the landing page listing only
Bar, generateMissingLwcsAndQuickActions applied to an input status mapping
whose only key is Foo returns a mapping keyed by Bar, not by Foo — the final
re-probe derives its entity list from the landing page, because
checkForExistingQuickActions takes no parameter even though both call sites
pass it one. -/
theorem reconcile_returns_landing_keys :
    ((generateMissingLwcsAndQuickActions (Except.ok [("Bar".data)]) allOk []
        ⟨none, [(("Foo".data), ⟨true, true, true⟩)]⟩ ⟨[], []⟩).2.2.sobjects.map
      Prod.fst = [("Bar".data)]) ∧
    ¬ ((generateMissingLwcsAndQuickActions (Except.ok [("Bar".data)]) allOk []
        ⟨none, [(("Foo".data), ⟨true, true, true⟩)]⟩ ⟨[], []⟩).2.2.sobjects.map
      Prod.fst =
      (⟨none, [(("Foo".data), ⟨true, true, true⟩)]⟩ :
        SObjectQuickActionStatus).sobjects.map Prod.fst) :=
  ⟨by decide, by decide⟩
